import Mathlib

/-!
Shallow embedding of the Trustpilot review ETL pipeline
(`src/scraper.py`, `src/cleaner.py`, `src/loader.py`).

The loader (`src/loader.py`) stores rows in a SQLite table with a UNIQUE
constraint on `review_id` and inserts via `INSERT OR REPLACE`; we model the
table as a list of rows in insertion/replacement order, an insert that
violates the CHECK constraint `rating >= 1 AND rating <= 5` as a skipped
row (the Python code catches `sqlite3.Error` per record and does not count
the row).
-/

namespace Trustpilot

/-- A validated review record as handed to `ReviewLoader.insert_reviews`
(the shape of the cleaned JSON artifact / the `reviews` table columns that
the INSERT statement sets).  `body` is the only nullable column. -/
structure Review where
  review_id : String
  rating : Int
  title : String
  body : Option String
  reviewer_name : String
  date : String
  is_verified : Bool
deriving DecidableEq, Repr

/-- The CHECK constraint of the `reviews` table:
`rating INTEGER NOT NULL CHECK(rating >= 1 AND rating <= 5)`.
All other constrained columns are non-null by construction of `Review`. -/
def validRow (r : Review) : Bool :=
  decide (1 ≤ r.rating) && decide (r.rating ≤ 5)

/-- `INSERT OR REPLACE` keyed on the UNIQUE column `review_id`: the
conflicting stored row (if any) is deleted and the new row inserted. -/
def upsertRow (db : List Review) (r : Review) : List Review :=
  db.filter (fun x => decide (x.review_id ≠ r.review_id)) ++ [r]

/-- `ReviewLoader.insert_reviews`: execute the upsert for each record in
order; a record that violates a constraint is caught, logged and skipped;
the returned count is the number of statements that executed without
error (a replace counts exactly like a fresh insert). -/
def insertReviews (db : List Review) (rs : List Review) : List Review × Nat :=
  match rs with
  | [] => (db, 0)
  | r :: rest =>
    if validRow r then
      let out := insertReviews (upsertRow db r) rest
      (out.1, out.2 + 1)
    else
      insertReviews db rest

/-- The `review_id` column of the table, in row order. -/
def dbIds (db : List Review) : List String :=
  db.map Review.review_id

/-- Number of records in a batch whose `review_id` duplicates that of an
earlier record of the same batch. -/
def dupIdCount (rs : List Review) : Nat :=
  rs.length - ((rs.map Review.review_id).dedup).length

/-!
The cleaner (`src/cleaner.py`) operates on a pandas DataFrame loaded from the
raw JSON artifact.  We model a cell as a `Val` (a JSON/pandas scalar: missing
`NaN`, integer, string, boolean, or a parsed datetime as produced by
`pd.to_datetime`) and the frame as a list of rows over the seven fixed
columns.  The pipeline `ReviewCleaner.clean` is, in source order:
`remove_duplicates`, `handle_missing_values`, `normalize_text_fields`,
`convert_types`, `validate_schema`.
-/

/-- A pandas cell value.  `vnull` is `NaN`/`None`/`NaT`; `vdate` is a parsed
timestamp (carried as its source string — the claims never inspect the
parsed components). -/
inductive Val : Type where
  | vnull : Val
  | vint : Int → Val
  | vstr : String → Val
  | vbool : Bool → Val
  | vdate : String → Val
deriving DecidableEq, Repr

/-- One DataFrame row over the seven review columns. -/
structure Row where
  review_id : Val
  rating : Val
  title : Val
  body : Val
  reviewer_name : Val
  date : Val
  is_verified : Val
deriving DecidableEq, Repr

/-- Python `str(...)` of a cell, as used by the id-generation f-string and by
`clean_text`'s `str(text)` (a float `NaN` prints as `"nan"`). -/
def pyStr : Val → String
  | Val.vnull => "nan"
  | Val.vint n => toString n
  | Val.vstr s => s
  | Val.vbool b => if b then "True" else "False"
  | Val.vdate d => d

/-- Keyed first-occurrence dedup: pandas `drop_duplicates(..., keep='first')`
drops every row whose key equals that of an earlier row.  `seen` carries the
keys of rows already scanned. -/
def dedupKeyGo {κ : Type} [DecidableEq κ] (key : Row → κ) :
    List Row → List κ → List Row
  | [], _ => []
  | r :: rs, seen =>
    if key r ∈ seen then dedupKeyGo key rs seen
    else r :: dedupKeyGo key rs (key r :: seen)

/-- `ReviewCleaner.remove_duplicates`: `drop_duplicates()` over all columns,
then `drop_duplicates(subset=['title', 'reviewer_name'], keep='first')`. -/
def removeDuplicates (rows : List Row) : List Row :=
  dedupKeyGo (fun r => (r.title, r.reviewer_name))
    (dedupKeyGo (fun r => r) rows []) []

/-- The backfill mask: `review_id` is null or the empty string. -/
def missingId (r : Row) : Bool :=
  decide (r.review_id = Val.vnull) || decide (r.review_id = Val.vstr "")

/-- The generated identifier
`f"gen_{i}_{hash(str(row['title']) + str(row['date']))}"`, where `i` is the
ordinal of the row within the missing-id subset and `h` models Python's
builtin `hash` (left abstract: its value is runtime-seeded). -/
def genId (h : String → Int) (i : Nat) (r : Row) : String :=
  "gen_" ++ toString i ++ "_" ++ toString (h (pyStr r.title ++ pyStr r.date))

/-- Identity backfill over the frame, threading the enumeration counter of
the missing-id subset. -/
def backfillIdsGo (h : String → Int) : List Row → Nat → List Row
  | [], _ => []
  | r :: rs, i =>
    if missingId r then
      { r with review_id := Val.vstr (genId h i r) } :: backfillIdsGo h rs (i + 1)
    else
      r :: backfillIdsGo h rs i

/-- The `review_id` backfill pass of `handle_missing_values`. -/
def backfillIds (h : String → Int) (rows : List Row) : List Row :=
  backfillIdsGo h rows 0

/-- `df['body'].fillna(df['title'])`. -/
def fillBody (r : Row) : Row :=
  { r with body := if r.body = Val.vnull then r.title else r.body }

/-- `fillna('Anonymous')` then `replace('', 'Anonymous')` on `reviewer_name`. -/
def fillName (v : Val) : Val :=
  if v = Val.vnull then Val.vstr "Anonymous"
  else if v = Val.vstr "" then Val.vstr "Anonymous"
  else v

/-- `df['is_verified'].fillna(False)`. -/
def fillVerified (r : Row) : Row :=
  { r with is_verified :=
      if r.is_verified = Val.vnull then Val.vbool false else r.is_verified }

/-- The `dropna(subset=['rating', 'title', 'date'])` keep-condition. -/
def criticalPresent (r : Row) : Bool :=
  decide (r.rating ≠ Val.vnull) && decide (r.title ≠ Val.vnull)
    && decide (r.date ≠ Val.vnull)

/-- `ReviewCleaner.handle_missing_values`: id backfill, body/name/verified
fills, then the critical-field `dropna`; returns the surviving rows and the
dropped-row count reported by the warning log. -/
def handleMissingValues (h : String → Int) (rows : List Row) : List Row × Nat :=
  let r1 := backfillIds h rows
  let r2 := r1.map fillBody
  let r3 := r2.map (fun r => { r with reviewer_name := fillName r.reviewer_name })
  let r4 := r3.map fillVerified
  let kept := r4.filter criticalPresent
  (kept, r4.length - kept.length)

/-- Python's `\s` on the characters that occur in review text
(space, tab, newline, carriage return, vertical tab, form feed). -/
def isSpaceChar (c : Char) : Bool :=
  c = ' ' || c = '\t' || c = '\n' || c = '\r'
    || c = Char.ofNat 11 || c = Char.ofNat 12

/-- Python's `\w` (ASCII range): letters, digits, underscore. -/
def isWordChar (c : Char) : Bool :=
  c.isAlphanum || c = '_'

/-- `re.sub(r'\s+', ' ', text)`: every maximal whitespace run becomes one
space. -/
def collapseWs : List Char → List Char
  | [] => []
  | [c] => [if isSpaceChar c then ' ' else c]
  | c :: d :: rest =>
    if isSpaceChar c && isSpaceChar d then collapseWs (d :: rest)
    else (if isSpaceChar c then ' ' else c) :: collapseWs (d :: rest)

/-- `text.strip()`. -/
def striplist (l : List Char) : List Char :=
  ((l.dropWhile isSpaceChar).reverse.dropWhile isSpaceChar).reverse

/-- The character class kept by `re.sub(r'[^\w\s.,!?\'"-]', '', text)`. -/
def keepChar (c : Char) : Bool :=
  isWordChar c || isSpaceChar c
    || c = '.' || c = ',' || c = '!' || c = '?'
    || c = '\'' || c = '"' || c = '-'

/-- `clean_text` on a string: collapse whitespace, strip, drop characters
outside the kept class. -/
def cleanText (s : String) : String :=
  String.mk ((striplist (collapseWs s.data)).filter keepChar)

/-- `clean_text` on a cell: `NaN` passes through, anything else is
`str(...)`-converted and cleaned. -/
def cleanVal : Val → Val
  | Val.vnull => Val.vnull
  | v => Val.vstr (cleanText (pyStr v))

/-- `ReviewCleaner.normalize_text_fields` over `title`, `body`,
`reviewer_name`. -/
def normalizeText (rows : List Row) : List Row :=
  rows.map (fun r =>
    { r with
        title := cleanVal r.title
        body := cleanVal r.body
        reviewer_name := cleanVal r.reviewer_name })

/-- Decimal value of a digit string. -/
def digitsToNat (l : List Char) : Nat :=
  l.foldl (fun a c => a * 10 + (c.toNat - 48)) 0

/-- The integer strings accepted by `pd.to_numeric`: an optional leading
minus sign followed by at least one decimal digit; anything else is
unparseable. -/
def strToNum (s : String) : Option Int :=
  match s.data with
  | [] => none
  | '-' :: rest =>
    if rest.isEmpty then none
    else if rest.all Char.isDigit then some (-(digitsToNat rest : Int))
    else none
  | l => if l.all Char.isDigit then some ((digitsToNat l : Int)) else none

/-- `pd.to_numeric(..., errors='coerce').astype('Int64')` on integral cells:
unparseable strings coerce to the missing sentinel.  (Fractional numeric
strings, which would make the `astype('Int64')` cast itself fail, are outside
the modelled inputs: ratings are integers or non-numeric text.) -/
def toNumericInt : Val → Val
  | Val.vint n => Val.vint n
  | Val.vbool b => Val.vint (if b then 1 else 0)
  | Val.vstr s =>
    match strToNum s with
    | some n => Val.vint n
    | none => Val.vnull
  | Val.vnull => Val.vnull
  | Val.vdate _ => Val.vnull

/-- Approximation of what `pd.to_datetime(..., errors='coerce')` accepts: an
ISO-like `YYYY-MM-DD...` prefix.  The exact accepted language of the pandas
parser is opaque to this development; the claims only distinguish parseable
from unparseable cells. -/
def isParsableDate (s : String) : Bool :=
  match s.data with
  | y1 :: y2 :: y3 :: y4 :: '-' :: m1 :: m2 :: '-' :: d1 :: d2 :: _ =>
    y1.isDigit && y2.isDigit && y3.isDigit && y4.isDigit
      && m1.isDigit && m2.isDigit && d1.isDigit && d2.isDigit
  | _ => false

/-- `pd.to_datetime(..., errors='coerce', utc=True)` followed by
`dt.tz_localize(None)`: strings parse to timestamps or coerce to `NaT`;
epoch integers parse; booleans coerce to `NaT`. -/
def toDatetime : Val → Val
  | Val.vnull => Val.vnull
  | Val.vdate d => Val.vdate d
  | Val.vstr s => if isParsableDate s then Val.vdate s else Val.vnull
  | Val.vint n => Val.vdate (toString n)
  | Val.vbool _ => Val.vnull

/-- `astype(bool)`: Python truthiness (`bool(nan)` is `True`). -/
def toBoolVal : Val → Val
  | Val.vbool b => Val.vbool b
  | Val.vint n => Val.vbool (decide (n ≠ 0))
  | Val.vstr s => Val.vbool (decide (s ≠ ""))
  | Val.vnull => Val.vbool true
  | Val.vdate _ => Val.vbool true

/-- `astype(str)`. -/
def toStrVal (v : Val) : Val :=
  Val.vstr (pyStr v)

/-- `ReviewCleaner.convert_types`. -/
def convertTypes (rows : List Row) : List Row :=
  rows.map (fun r =>
    { r with
        rating := toNumericInt r.rating
        date := toDatetime r.date
        is_verified := toBoolVal r.is_verified
        review_id := toStrVal r.review_id })

/-- `rating ∈ [1, 5]` as checked by `Check.in_range(1, 5)` on an `int`
column (the missing sentinel fails the non-null/coercion check). -/
def ratingValid : Val → Bool
  | Val.vint n => decide (1 ≤ n) && decide (n ≤ 5)
  | _ => false

/-- A non-null string column cell passing `len(x) > 0`. -/
def isNonemptyStr : Val → Bool
  | Val.vstr s => decide (s ≠ "")
  | _ => false

/-- A cell admissible for the nullable string column `body`. -/
def bodyOk : Val → Bool
  | Val.vstr _ => true
  | Val.vnull => true
  | _ => false

/-- Per-row conjunction of the `ReviewSchema` column checks (types,
`rating ∈ [1,5]`, non-empty `title` and `reviewer_name`, datetime `date`,
boolean `is_verified`); the `unique=True` check on `review_id` is positional
and handled in `validateSchemaGo`. -/
def rowSchemaOk (r : Row) : Bool :=
  (match r.review_id with | Val.vstr _ => true | _ => false)
    && ratingValid r.rating
    && isNonemptyStr r.title
    && bodyOk r.body
    && isNonemptyStr r.reviewer_name
    && (match r.date with | Val.vdate _ => true | _ => false)
    && (match r.is_verified with | Val.vbool _ => true | _ => false)

/-- Lazy schema validation: every row is checked, the failure cases are
collected, and rows with any violation — a failed column check, or a
`review_id` equal to an earlier row's (`unique=True`, `duplicated()` marks
second and later occurrences) — are dropped from the returned frame. -/
def validateSchemaGo : List Row → List Val → List Row
  | [], _ => []
  | r :: rs, seen =>
    if rowSchemaOk r && !(decide (r.review_id ∈ seen)) then
      r :: validateSchemaGo rs (r.review_id :: seen)
    else
      validateSchemaGo rs (r.review_id :: seen)

/-- `ReviewCleaner.validate_schema`. -/
def validateSchema (rows : List Row) : List Row :=
  validateSchemaGo rows []

/-- `ReviewCleaner.clean` (after `load_data`): dedup, missing-value handling,
text normalization, type conversion, schema validation.  Returns the accepted
frame and the critical-field dropped-row count. -/
def cleanPipeline (h : String → Int) (rows : List Row) : List Row × Nat :=
  let d := removeDuplicates rows
  let m := handleMissingValues h d
  (validateSchema (convertTypes (normalizeText m.1)), m.2)

/-- A concrete candidate family whose rating cell is an arbitrary string:
all other fields are well-formed, so the fate of the row is decided by its
rating alone. -/
def c3row (s : String) : Row :=
  ⟨Val.vstr "r1", Val.vstr s, Val.vstr "Good product",
    Val.vstr "Solid body text here", Val.vstr "Alice",
    Val.vstr "2024-01-02", Val.vbool false⟩


/-!
The scraper (`src/scraper.py`) drives a DOM-query capability (Playwright)
that is external to the core.  A card is modelled as the outcomes of the DOM
accesses `_parse_review_card` performs, in source order; each access either
yields a value, matches no element, or raises.  The `try` block is modelled
in `Except`, whose error value carries the dict as filled so far (the
`except` handler logs and falls through to `return review`).
-/

/-- Outcome of one DOM query/read against a card. -/
inductive FieldRes (α : Type) : Type where
  | ok : α → FieldRes α
  | absent : FieldRes α
  | raises : FieldRes α
deriving DecidableEq, Repr

/-- One review card: the outcomes of each DOM access of
`_parse_review_card`, in the order the code performs them. -/
structure Card where
  idAttr : FieldRes String
  starSrc : FieldRes String
  titleText : FieldRes String
  bodyPrimary : FieldRes String
  paragraphs : FieldRes (List String)
  name1 : FieldRes String
  name2 : FieldRes String
  name3 : FieldRes String
  profileLink : FieldRes String
  timeAttr : FieldRes (Option String)
  cardText : FieldRes String
deriving DecidableEq, Repr

/-- The review dict initialized at the top of `_parse_review_card`. -/
structure RawReview where
  review_id : Option String
  rating : Int
  title : Option String
  body : Option String
  reviewer_name : Option String
  date : Option String
  is_verified : Bool
deriving DecidableEq, Repr

/-- `{'review_id': None, 'rating': 0, 'title': None, 'body': None,
'reviewer_name': None, 'date': None, 'is_verified': False}`. -/
def initReview : RawReview :=
  ⟨none, 0, none, none, none, none, false⟩

/-- Python `.strip()` (the same whitespace set as the cleaner model). -/
def pyStrip (s : String) : String :=
  String.mk (striplist s.data)

/-- `re.search(r'stars-(\d)', src)`: scan left to right for `stars-`
followed by a digit and return that digit. -/
def ratingScan : List Char → Int
  | [] => 0
  | c :: cs =>
    match c :: cs with
    | 's' :: 't' :: 'a' :: 'r' :: 's' :: '-' :: d :: _ =>
      if d.isDigit then ((d.toNat - 48 : Nat) : Int) else ratingScan cs
    | _ => ratingScan cs

/-- `_extract_rating`: the scanned digit, or 0 when no match (unknown
rating is not a failure). -/
def extractRating (src : String) : Int :=
  ratingScan src.data

/-- `re.match(r'^(Date of experience|Updated|Replied)', text)`. -/
def isBoilerplate (t : String) : Bool :=
  "Date of experience".data.isPrefixOf t.data
    || "Updated".data.isPrefixOf t.data
    || "Replied".data.isPrefixOf t.data

/-- The paragraph fallback loop of the body extraction: the first `p` whose
stripped text is longer than 20 characters and is not boilerplate. -/
def pickBody : List String → Option String
  | [] => none
  | p :: ps =>
    if decide ((pyStrip p).length > 20) && !isBoilerplate (pyStrip p) then
      some (pyStrip p)
    else pickBody ps

/-- Python truthiness of a name/id slot (`None` and `""` are falsy). -/
def truthyOpt : Option String → Bool
  | none => false
  | some s => decide (s ≠ "")

/-- Substring test on char lists (`'verified' in card_text`). -/
def hasSubstr : List Char → List Char → Bool
  | [], pat => pat.isEmpty
  | c :: cs, pat => pat.isPrefixOf (c :: cs) || hasSubstr cs pat

/-- Sequencing inside the `try` block: once a step raised, the rest of the
block does not run. -/
def stepThen (x : Except RawReview RawReview)
    (f : RawReview → Except RawReview RawReview) : Except RawReview RawReview :=
  match x with
  | Except.error r => Except.error r
  | Except.ok r => f r

/-- `review_id = card.get_attribute('id'); if review_id: ...` — the id is
stored only when truthy. -/
def stepId (c : Card) (r : RawReview) : Except RawReview RawReview :=
  match c.idAttr with
  | FieldRes.ok v =>
    Except.ok (if v = "" then r else { r with review_id := some v })
  | FieldRes.absent => Except.ok r
  | FieldRes.raises => Except.error r

/-- The star-image rating step. -/
def stepRating (c : Card) (r : RawReview) : Except RawReview RawReview :=
  match c.starSrc with
  | FieldRes.ok src => Except.ok { r with rating := extractRating src }
  | FieldRes.absent => Except.ok r
  | FieldRes.raises => Except.error r

/-- The `h2` title step: set whenever the element exists (even to ""). -/
def stepTitle (c : Card) (r : RawReview) : Except RawReview RawReview :=
  match c.titleText with
  | FieldRes.ok t => Except.ok { r with title := some (pyStrip t) }
  | FieldRes.absent => Except.ok r
  | FieldRes.raises => Except.error r

/-- The body step: the primary semantically-tagged selector wins whenever
its element exists; only when it is absent does the paragraph scan run. -/
def stepBody (c : Card) (r : RawReview) : Except RawReview RawReview :=
  match c.bodyPrimary with
  | FieldRes.ok t => Except.ok { r with body := some (pyStrip t) }
  | FieldRes.raises => Except.error r
  | FieldRes.absent =>
    match c.paragraphs with
    | FieldRes.ok ps =>
      Except.ok
        (match pickBody ps with
          | some t => { r with body := some t }
          | none => r)
    | FieldRes.absent => Except.ok r
    | FieldRes.raises => Except.error r

/-- The three-selector loop for the reviewer name: `break` fires at the
first selector whose ELEMENT matches, whatever its text. -/
def tryNames (c : Card) : Except Unit (Option String) :=
  match c.name1 with
  | FieldRes.ok t => Except.ok (some (pyStrip t))
  | FieldRes.raises => Except.error ()
  | FieldRes.absent =>
    match c.name2 with
    | FieldRes.ok t => Except.ok (some (pyStrip t))
    | FieldRes.raises => Except.error ()
    | FieldRes.absent =>
      match c.name3 with
      | FieldRes.ok t => Except.ok (some (pyStrip t))
      | FieldRes.raises => Except.error ()
      | FieldRes.absent => Except.ok none

/-- The reviewer-name step: selector loop, then — `if not
review['reviewer_name']` — the `/users/` profile-link fallback. -/
def stepName (c : Card) (r : RawReview) : Except RawReview RawReview :=
  match tryNames c with
  | Except.error _ => Except.error r
  | Except.ok nm =>
    let r1 := match nm with
      | some t => { r with reviewer_name := some t }
      | none => r
    if truthyOpt r1.reviewer_name then Except.ok r1
    else
      match c.profileLink with
      | FieldRes.ok t => Except.ok { r1 with reviewer_name := some (pyStrip t) }
      | FieldRes.absent => Except.ok r1
      | FieldRes.raises => Except.error r1

/-- The `time` element datetime step (the attribute itself may be null). -/
def stepDate (c : Card) (r : RawReview) : Except RawReview RawReview :=
  match c.timeAttr with
  | FieldRes.ok v => Except.ok { r with date := v }
  | FieldRes.absent => Except.ok r
  | FieldRes.raises => Except.error r

/-- `review['is_verified'] = 'verified' in card.inner_text().lower()`. -/
def stepVerified (c : Card) (r : RawReview) : Except RawReview RawReview :=
  match c.cardText with
  | FieldRes.ok t =>
    Except.ok
      { r with is_verified := hasSubstr (t.data.map Char.toLower) "verified".data }
  | FieldRes.absent => Except.ok r
  | FieldRes.raises => Except.error r

/-- The body of `_parse_review_card`'s `try` block, in source order. -/
def parseSteps (c : Card) : Except RawReview RawReview :=
  stepThen (stepThen (stepThen (stepThen (stepThen (stepThen
    (stepId c initReview) (stepRating c)) (stepTitle c)) (stepBody c))
    (stepName c)) (stepDate c)) (stepVerified c)

/-- Collapse the `try`/`except`: on an exception the dict as filled so far
is what `return review` yields. -/
def runResult : Except RawReview RawReview → RawReview
  | Except.ok r => r
  | Except.error r => r

/-- `_parse_review_card`. -/
def parseReviewCard (c : Card) : RawReview :=
  runResult (parseSteps c)

/-- The per-card emission of `scrape_page`:
`if review['review_id'] or review['title']: page_reviews.append(review)`. -/
def emitCard (c : Card) : List RawReview :=
  if truthyOpt (parseReviewCard c).review_id
      || truthyOpt (parseReviewCard c).title then
    [parseReviewCard c]
  else []

/-- `scrape_page`'s loop over the page's review cards. -/
def scrapePage (cards : List Card) : List RawReview :=
  match cards with
  | [] => []
  | c :: cs => emitCard c ++ scrapePage cs

/-- A concrete card whose id read succeeds and whose star-image query then
raises: parsing stops there with the id already recorded. -/
def cBadCard : Card :=
  ⟨FieldRes.ok "rev1", FieldRes.raises, FieldRes.ok "A title",
    FieldRes.ok "Body text", FieldRes.absent, FieldRes.absent,
    FieldRes.ok "Bob", FieldRes.absent, FieldRes.absent,
    FieldRes.ok (some "2024-01-01"), FieldRes.ok "text"⟩

/-- A concrete card on which the first name selector matches an element
whose text is empty, the second would yield "Bob", and the profile-link
anchor yields "Carol". -/
def cEmptyNameCard : Card :=
  ⟨FieldRes.ok "rev2", FieldRes.absent, FieldRes.ok "T",
    FieldRes.absent, FieldRes.ok [], FieldRes.ok "",
    FieldRes.ok "Bob", FieldRes.absent, FieldRes.ok "Carol",
    FieldRes.ok (some "2024-01-01"), FieldRes.ok "text"⟩

end Trustpilot

namespace Trustpilot

theorem filter_upsertRow (db : List Review) (r : Review) :
    (upsertRow db r).filter (fun x => decide (x.review_id = r.review_id)) = [r] := by
  unfold upsertRow
  rw [List.filter_append]
  have h1 : (db.filter (fun x => decide (x.review_id ≠ r.review_id))).filter
      (fun x => decide (x.review_id = r.review_id)) = [] := by
    rw [List.filter_filter]
    apply List.filter_eq_nil_iff.mpr
    intro a _
    by_cases h : a.review_id = r.review_id <;> simp [h]
  rw [h1]
  simp

theorem map_filter_comp {α β : Type} (f : α → β) (p : β → Bool) (l : List α) :
    (l.filter (fun a => p (f a))).map f = (l.map f).filter p := by
  induction l with
  | nil => rfl
  | cons a l ih =>
    by_cases h : p (f a) <;> simp [List.filter, h, ih]

theorem dbIds_upsertRow (db : List Review) (r : Review) :
    dbIds (upsertRow db r)
      = (dbIds db).filter (fun s => decide (s ≠ r.review_id)) ++ [r.review_id] := by
  unfold upsertRow dbIds
  rw [List.map_append,
    map_filter_comp Review.review_id (fun s => decide (s ≠ r.review_id))]
  rfl

theorem nodup_dbIds_upsertRow (db : List Review) (r : Review)
    (h : (dbIds db).Nodup) : (dbIds (upsertRow db r)).Nodup := by
  rw [dbIds_upsertRow]
  apply List.Nodup.append
  · exact h.filter _
  · exact List.nodup_singleton _
  · intro a ha hb
    simp at hb
    subst hb
    have := List.of_mem_filter ha
    simp at this

theorem toFinset_dbIds_upsertRow (db : List Review) (r : Review) :
    (dbIds (upsertRow db r)).toFinset = insert r.review_id (dbIds db).toFinset := by
  rw [dbIds_upsertRow]
  ext a
  simp only [List.toFinset_append, Finset.mem_union, List.mem_toFinset,
    List.mem_filter, Finset.mem_insert]
  constructor
  · rintro (⟨ha, _⟩ | ha)
    · exact Or.inr ha
    · simp at ha
      exact Or.inl ha
  · intro h
    by_cases hr : a = r.review_id
    · right
      simp [hr]
    · rcases h with h | h
      · exact absurd h hr
      · exact Or.inl ⟨h, by simpa using hr⟩

theorem insertReviews_count (rs : List Review) :
    ∀ db, (insertReviews db rs).2 = (rs.filter validRow).length := by
  induction rs with
  | nil => intro db; rfl
  | cons r rest ih =>
    intro db
    by_cases h : validRow r = true
    · simp [insertReviews, h, List.filter_cons, ih]
    · simp [insertReviews, h, List.filter_cons, ih]

theorem insertReviews_nodup (rs : List Review) :
    ∀ db, (dbIds db).Nodup → (dbIds (insertReviews db rs).1).Nodup := by
  induction rs with
  | nil => intro db h; exact h
  | cons r rest ih =>
    intro db h
    by_cases hv : validRow r = true
    · simp only [insertReviews, hv, if_true]
      exact ih _ (nodup_dbIds_upsertRow db r h)
    · simp only [insertReviews, hv, if_false]
      exact ih _ h

theorem insertReviews_toFinset (rs : List Review) :
    ∀ db, (∀ x ∈ rs, validRow x = true) →
      (dbIds (insertReviews db rs).1).toFinset
        = (dbIds db).toFinset ∪ (rs.map Review.review_id).toFinset := by
  induction rs with
  | nil => intro db _; simp [insertReviews]
  | cons r rest ih =>
    intro db hall
    have hv := hall r (by simp)
    simp only [insertReviews, hv, if_true]
    rw [ih (upsertRow db r) (fun x hx => hall x (by simp [hx])),
      toFinset_dbIds_upsertRow, List.map_cons, List.toFinset_cons,
      Finset.insert_union, Finset.union_insert]

theorem insertReviews_length_empty (rs : List Review)
    (hall : ∀ x ∈ rs, validRow x = true) :
    (insertReviews [] rs).1.length = ((rs.map Review.review_id).dedup).length := by
  have hnd := insertReviews_nodup rs [] (by simp [dbIds])
  have hfin : (dbIds (insertReviews [] rs).1).toFinset
      = (rs.map Review.review_id).toFinset := by
    rw [insertReviews_toFinset rs [] hall]
    simp [dbIds]
  calc (insertReviews [] rs).1.length
      = (dbIds (insertReviews [] rs).1).length := by simp [dbIds]
    _ = (dbIds (insertReviews [] rs).1).toFinset.card :=
        (List.toFinset_card_of_nodup hnd).symm
    _ = (rs.map Review.review_id).toFinset.card := by rw [hfin]
    _ = ((rs.map Review.review_id).dedup).length := List.card_toFinset _

theorem insertReviews_rerun_length (rs : List Review)
    (hall : ∀ x ∈ rs, validRow x = true) :
    (insertReviews (insertReviews [] rs).1 rs).1.length
      = ((rs.map Review.review_id).dedup).length := by
  have hnd1 := insertReviews_nodup rs [] (by simp [dbIds])
  have hnd2 := insertReviews_nodup rs (insertReviews [] rs).1 hnd1
  have hfin1 : (dbIds (insertReviews [] rs).1).toFinset
      = (rs.map Review.review_id).toFinset := by
    rw [insertReviews_toFinset rs [] hall]
    simp [dbIds]
  have hfin2 : (dbIds (insertReviews (insertReviews [] rs).1 rs).1).toFinset
      = (rs.map Review.review_id).toFinset := by
    rw [insertReviews_toFinset rs _ hall, hfin1, Finset.union_self]
  calc (insertReviews (insertReviews [] rs).1 rs).1.length
      = (dbIds (insertReviews (insertReviews [] rs).1 rs).1).length := by simp [dbIds]
    _ = (dbIds (insertReviews (insertReviews [] rs).1 rs).1).toFinset.card :=
        (List.toFinset_card_of_nodup hnd2).symm
    _ = (rs.map Review.review_id).toFinset.card := by rw [hfin2]
    _ = ((rs.map Review.review_id).dedup).length := List.card_toFinset _

/-- C1: ingesting a record whose `review_id` is already stored leaves exactly
one stored row for that `review_id`, carrying the later call's field values
(last-write-wins, never an appended duplicate); and inserting a batch of N
validated records with M duplicate identifiers into an empty store yields
exactly N − M distinct stored rows. -/
theorem upsert_last_write_wins (db : List Review) (r : Review) (rs : List Review)
    (hv : validRow r = true) (hall : ∀ x ∈ rs, validRow x = true) :
    ((insertReviews db [r]).1.filter (fun x => decide (x.review_id = r.review_id))) = [r]
    ∧ (insertReviews [] rs).1.length = rs.length - dupIdCount rs := by
  constructor
  · simp only [insertReviews, hv, if_true]
    exact filter_upsertRow db r
  · rw [insertReviews_length_empty rs hall]
    unfold dupIdCount
    have hle : ((rs.map Review.review_id).dedup).length ≤ rs.length := by
      calc ((rs.map Review.review_id).dedup).length
          ≤ (rs.map Review.review_id).length :=
            (List.dedup_sublist _).length_le
        _ = rs.length := List.length_map _ _
    omega

/-- Witness for `upsert_last_write_wins` at a concrete store and batch. -/
theorem upsert_last_write_wins_witness :
    ((insertReviews
        [⟨"a", 4, "old title", none, "Ann", "2024-01-01", false⟩]
        [⟨"a", 2, "new title", some "b", "Bob", "2024-02-02", true⟩]).1.filter
        (fun x => decide (x.review_id = "a")))
      = [⟨"a", 2, "new title", some "b", "Bob", "2024-02-02", true⟩]
    ∧ (insertReviews []
        [⟨"a", 2, "t", none, "Bob", "d", true⟩,
         ⟨"b", 3, "u", none, "Cid", "d", false⟩,
         ⟨"a", 5, "v", none, "Dee", "d", false⟩]).1.length
      = 3 - dupIdCount
        [⟨"a", 2, "t", none, "Bob", "d", true⟩,
         ⟨"b", 3, "u", none, "Cid", "d", false⟩,
         ⟨"a", 5, "v", none, "Dee", "d", false⟩] := by
  exact upsert_last_write_wins
    [⟨"a", 4, "old title", none, "Ann", "2024-01-01", false⟩]
    ⟨"a", 2, "new title", some "b", "Bob", "2024-02-02", true⟩
    [⟨"a", 2, "t", none, "Bob", "d", true⟩,
     ⟨"b", 3, "u", none, "Cid", "d", false⟩,
     ⟨"a", 5, "v", none, "Dee", "d", false⟩]
    (by decide) (by decide)

/-- C10: the count returned by the batch insert is the number of records whose
statement executed without error (a replace counts like a fresh insert);
re-running the load on the same N-record artifact (valid ratings, distinct
identifiers) returns N again while the stored row count stays N, so the sum of
returned counts across the two runs exceeds the number of stored rows. -/
theorem insert_count_semantics (db : List Review) (rs : List Review)
    (hall : ∀ x ∈ rs, validRow x = true)
    (hnd : (rs.map Review.review_id).Nodup) :
    (insertReviews db rs).2 = (rs.filter validRow).length
    ∧ (insertReviews [] rs).2 = rs.length
    ∧ (insertReviews [] rs).1.length = rs.length
    ∧ (insertReviews (insertReviews [] rs).1 rs).2 = rs.length
    ∧ (insertReviews (insertReviews [] rs).1 rs).1.length = rs.length
    ∧ (rs ≠ [] →
        (insertReviews [] rs).2 + (insertReviews (insertReviews [] rs).1 rs).2
          > (insertReviews (insertReviews [] rs).1 rs).1.length) := by
  have hfilter : rs.filter validRow = rs := List.filter_eq_self.mpr hall
  have hded : (rs.map Review.review_id).dedup = rs.map Review.review_id :=
    List.dedup_eq_self.mpr hnd
  have hcount0 : (insertReviews [] rs).2 = rs.length := by
    rw [insertReviews_count rs [], hfilter]
  have hlen1 : (insertReviews [] rs).1.length = rs.length := by
    rw [insertReviews_length_empty rs hall, hded, List.length_map]
  have hcount2 : (insertReviews (insertReviews [] rs).1 rs).2 = rs.length := by
    rw [insertReviews_count rs _, hfilter]
  have hlen2 : (insertReviews (insertReviews [] rs).1 rs).1.length = rs.length := by
    rw [insertReviews_rerun_length rs hall, hded, List.length_map]
  refine ⟨by rw [insertReviews_count rs db], hcount0, hlen1, hcount2, hlen2, ?_⟩
  intro hne
  rw [hcount0, hcount2, hlen2]
  have : 0 < rs.length := List.length_pos.mpr hne
  omega

/-- Witness for `insert_count_semantics` at a concrete store and batch. -/
theorem insert_count_semantics_witness :
    (insertReviews [⟨"z", 1, "t0", none, "Zoe", "d0", false⟩]
        [⟨"a", 2, "t", none, "Bob", "d", true⟩,
         ⟨"b", 3, "u", none, "Cid", "d", false⟩]).2
      = ([⟨"a", 2, "t", none, "Bob", "d", true⟩,
          ⟨"b", 3, "u", none, "Cid", "d", false⟩].filter validRow).length
    ∧ (insertReviews []
        [⟨"a", 2, "t", none, "Bob", "d", true⟩,
         ⟨"b", 3, "u", none, "Cid", "d", false⟩]).2 = 2
    ∧ (insertReviews []
        [⟨"a", 2, "t", none, "Bob", "d", true⟩,
         ⟨"b", 3, "u", none, "Cid", "d", false⟩]).1.length = 2
    ∧ (insertReviews (insertReviews []
        [⟨"a", 2, "t", none, "Bob", "d", true⟩,
         ⟨"b", 3, "u", none, "Cid", "d", false⟩]).1
        [⟨"a", 2, "t", none, "Bob", "d", true⟩,
         ⟨"b", 3, "u", none, "Cid", "d", false⟩]).2 = 2
    ∧ (insertReviews (insertReviews []
        [⟨"a", 2, "t", none, "Bob", "d", true⟩,
         ⟨"b", 3, "u", none, "Cid", "d", false⟩]).1
        [⟨"a", 2, "t", none, "Bob", "d", true⟩,
         ⟨"b", 3, "u", none, "Cid", "d", false⟩]).1.length = 2
    ∧ (([⟨"a", 2, "t", none, "Bob", "d", true⟩,
         ⟨"b", 3, "u", none, "Cid", "d", false⟩] : List Review) ≠ [] →
        (insertReviews []
          [⟨"a", 2, "t", none, "Bob", "d", true⟩,
           ⟨"b", 3, "u", none, "Cid", "d", false⟩]).2
          + (insertReviews (insertReviews []
              [⟨"a", 2, "t", none, "Bob", "d", true⟩,
               ⟨"b", 3, "u", none, "Cid", "d", false⟩]).1
              [⟨"a", 2, "t", none, "Bob", "d", true⟩,
               ⟨"b", 3, "u", none, "Cid", "d", false⟩]).2
          > (insertReviews (insertReviews []
              [⟨"a", 2, "t", none, "Bob", "d", true⟩,
               ⟨"b", 3, "u", none, "Cid", "d", false⟩]).1
              [⟨"a", 2, "t", none, "Bob", "d", true⟩,
               ⟨"b", 3, "u", none, "Cid", "d", false⟩]).1.length) := by
  exact insert_count_semantics
    [⟨"z", 1, "t0", none, "Zoe", "d0", false⟩]
    [⟨"a", 2, "t", none, "Bob", "d", true⟩,
     ⟨"b", 3, "u", none, "Cid", "d", false⟩]
    (by decide) (by decide)

end Trustpilot

namespace Trustpilot

theorem mem_validateSchemaGo (rows : List Row) :
    ∀ seen r, r ∈ validateSchemaGo rows seen → r ∈ rows ∧ rowSchemaOk r = true := by
  induction rows with
  | nil =>
    intro seen r hr
    simp [validateSchemaGo] at hr
  | cons a rs ih =>
    intro seen r hr
    unfold validateSchemaGo at hr
    by_cases hc : (rowSchemaOk a && !(decide (a.review_id ∈ seen))) = true
    · rw [if_pos hc] at hr
      rcases List.mem_cons.mp hr with h1 | h2
      · subst h1
        have hc2 : rowSchemaOk r = true ∧ !(decide (r.review_id ∈ seen)) = true := by
          simpa [Bool.and_eq_true] using hc
        exact ⟨List.mem_cons_self _ _, hc2.1⟩
      · obtain ⟨hm, hok⟩ := ih _ r h2
        exact ⟨List.mem_cons_of_mem _ hm, hok⟩
    · rw [if_neg hc] at hr
      obtain ⟨hm, hok⟩ := ih _ r hr
      exact ⟨List.mem_cons_of_mem _ hm, hok⟩

theorem validateSchemaGo_length_le (rows : List Row) :
    ∀ seen, (validateSchemaGo rows seen).length ≤ rows.length := by
  induction rows with
  | nil => intro seen; simp [validateSchemaGo]
  | cons a rs ih =>
    intro seen
    unfold validateSchemaGo
    by_cases hc : (rowSchemaOk a && !(decide (a.review_id ∈ seen))) = true
    · rw [if_pos hc]
      simpa using Nat.succ_le_succ (ih _)
    · rw [if_neg hc]
      exact Nat.le_succ_of_le (ih _)

theorem validateSchemaGo_length_lt (rows : List Row) :
    ∀ seen, (∃ r ∈ rows, rowSchemaOk r = false) →
      (validateSchemaGo rows seen).length < rows.length := by
  induction rows with
  | nil =>
    intro seen h
    simp at h
  | cons a rs ih =>
    intro seen h
    obtain ⟨r, hmem, hbad⟩ := h
    unfold validateSchemaGo
    by_cases hc : (rowSchemaOk a && !(decide (a.review_id ∈ seen))) = true
    · rw [if_pos hc]
      have hc2 : rowSchemaOk a = true ∧ !(decide (a.review_id ∈ seen)) = true := by
        simpa [Bool.and_eq_true] using hc
      have hra : r ≠ a := by
        intro he
        subst he
        rw [hc2.1] at hbad
        cases hbad
      have hrs : r ∈ rs := by
        rcases List.mem_cons.mp hmem with h1 | h1
        · exact absurd h1 hra
        · exact h1
      have hlt := ih (a.review_id :: seen) ⟨r, hrs, hbad⟩
      simpa using Nat.succ_lt_succ hlt
    · rw [if_neg hc]
      calc (validateSchemaGo rs (a.review_id :: seen)).length
          ≤ rs.length := validateSchemaGo_length_le rs _
        _ < (a :: rs).length := by simp

theorem ratingValid_spec (v : Val) (h : ratingValid v = true) :
    ∃ n : Int, v = Val.vint n ∧ 1 ≤ n ∧ n ≤ 5 := by
  cases v <;> simp [ratingValid] at h
  case vint n => exact ⟨n, rfl, h.1, h.2⟩

theorem isNonemptyStr_spec (v : Val) (h : isNonemptyStr v = true) :
    ∃ s : String, v = Val.vstr s ∧ s ≠ "" := by
  cases v <;> simp [isNonemptyStr] at h
  case vstr s => exact ⟨s, rfl, h⟩

/-- C5: every row accepted by schema validation is one of the input rows and
has an integer rating in {1,2,3,4,5}, a non-empty string title and a
non-empty string reviewer name; contrapositively, a row violating any of
these checks is never a member of the accepted set. -/
theorem schema_invariant (rows : List Row) (r : Row)
    (hmem : r ∈ validateSchema rows) :
    (∃ n : Int, r.rating = Val.vint n ∧ 1 ≤ n ∧ n ≤ 5)
    ∧ (∃ t : String, r.title = Val.vstr t ∧ t ≠ "")
    ∧ (∃ m : String, r.reviewer_name = Val.vstr m ∧ m ≠ "")
    ∧ r ∈ rows := by
  obtain ⟨hin, hok⟩ := mem_validateSchemaGo rows [] r hmem
  unfold rowSchemaOk at hok
  simp only [Bool.and_eq_true] at hok
  obtain ⟨⟨⟨⟨⟨⟨_, hrating⟩, htitle⟩, _⟩, hname⟩, _⟩, _⟩ := hok
  exact ⟨ratingValid_spec _ hrating, isNonemptyStr_spec _ htitle,
    isNonemptyStr_spec _ hname, hin⟩

/-- Witness for `schema_invariant` on a concrete batch. -/
theorem schema_invariant_witness :
    (∃ n : Int,
        (⟨Val.vstr "x", Val.vint 4, Val.vstr "T", Val.vnull, Val.vstr "A",
          Val.vdate "2024-01-01", Val.vbool false⟩ : Row).rating = Val.vint n
        ∧ 1 ≤ n ∧ n ≤ 5)
    ∧ (∃ t : String,
        (⟨Val.vstr "x", Val.vint 4, Val.vstr "T", Val.vnull, Val.vstr "A",
          Val.vdate "2024-01-01", Val.vbool false⟩ : Row).title = Val.vstr t
        ∧ t ≠ "")
    ∧ (∃ m : String,
        (⟨Val.vstr "x", Val.vint 4, Val.vstr "T", Val.vnull, Val.vstr "A",
          Val.vdate "2024-01-01", Val.vbool false⟩ : Row).reviewer_name = Val.vstr m
        ∧ m ≠ "")
    ∧ (⟨Val.vstr "x", Val.vint 4, Val.vstr "T", Val.vnull, Val.vstr "A",
          Val.vdate "2024-01-01", Val.vbool false⟩ : Row)
        ∈ [(⟨Val.vstr "x", Val.vint 4, Val.vstr "T", Val.vnull, Val.vstr "A",
          Val.vdate "2024-01-01", Val.vbool false⟩ : Row)] := by
  exact schema_invariant
    [⟨Val.vstr "x", Val.vint 4, Val.vstr "T", Val.vnull, Val.vstr "A",
      Val.vdate "2024-01-01", Val.vbool false⟩]
    ⟨Val.vstr "x", Val.vint 4, Val.vstr "T", Val.vnull, Val.vstr "A",
      Val.vdate "2024-01-01", Val.vbool false⟩
    (by decide)

theorem rowSchemaOk_of_rating_zero (r : Row) (hr : r.rating = Val.vint 0) :
    rowSchemaOk r = false := by
  unfold rowSchemaOk
  rw [hr]
  simp [ratingValid]

/-- C9: a candidate whose star rating is 0 has a non-null rating (so the
critical-field drop does not remove it), yet it is excluded from the
accepted set by the rating ∈ [1,5] schema rule and lowers the accepted
count below the input count (it is counted among the rejected rows); at
the store level a rating-0 record is likewise rejected by the CHECK
constraint, so such a review never becomes a stored row. -/
theorem rating_zero_rejected (rows : List Row) (r : Row)
    (db : List Review) (v : Review)
    (hmem : r ∈ rows) (hr : r.rating = Val.vint 0) (hv : v.rating = 0) :
    r.rating ≠ Val.vnull
    ∧ r ∉ validateSchema rows
    ∧ (validateSchema rows).length < rows.length
    ∧ insertReviews db [v] = (db, 0) := by
  have hbad := rowSchemaOk_of_rating_zero r hr
  refine ⟨by rw [hr]; simp, ?_, ?_, ?_⟩
  · intro hc
    have := (mem_validateSchemaGo rows [] r hc).2
    rw [hbad] at this
    cases this
  · exact validateSchemaGo_length_lt rows [] ⟨r, hmem, hbad⟩
  · have hval : validRow v = false := by simp [validRow, hv]
    simp [insertReviews, hval]

/-- Witness for `rating_zero_rejected` at a concrete batch and store. -/
theorem rating_zero_rejected_witness :
    (⟨Val.vstr "x", Val.vint 0, Val.vstr "T", Val.vnull, Val.vstr "A",
        Val.vdate "2024-01-01", Val.vbool false⟩ : Row).rating ≠ Val.vnull
    ∧ (⟨Val.vstr "x", Val.vint 0, Val.vstr "T", Val.vnull, Val.vstr "A",
        Val.vdate "2024-01-01", Val.vbool false⟩ : Row)
        ∉ validateSchema
          [⟨Val.vstr "x", Val.vint 0, Val.vstr "T", Val.vnull, Val.vstr "A",
            Val.vdate "2024-01-01", Val.vbool false⟩]
    ∧ (validateSchema
          [⟨Val.vstr "x", Val.vint 0, Val.vstr "T", Val.vnull, Val.vstr "A",
            Val.vdate "2024-01-01", Val.vbool false⟩]).length
        < ([⟨Val.vstr "x", Val.vint 0, Val.vstr "T", Val.vnull, Val.vstr "A",
            Val.vdate "2024-01-01", Val.vbool false⟩] : List Row).length
    ∧ insertReviews [] [⟨"x", 0, "T", none, "A", "2024-01-01", false⟩]
        = ([], 0) := by
  exact rating_zero_rejected
    [⟨Val.vstr "x", Val.vint 0, Val.vstr "T", Val.vnull, Val.vstr "A",
      Val.vdate "2024-01-01", Val.vbool false⟩]
    ⟨Val.vstr "x", Val.vint 0, Val.vstr "T", Val.vnull, Val.vstr "A",
      Val.vdate "2024-01-01", Val.vbool false⟩
    [] ⟨"x", 0, "T", none, "A", "2024-01-01", false⟩
    (by decide) rfl rfl

theorem dedupKeyGo_key_spec {κ : Type} [DecidableEq κ] (key : Row → κ)
    (rows : List Row) :
    ∀ seen, ((dedupKeyGo key rows seen).map key).Nodup
      ∧ ∀ k ∈ (dedupKeyGo key rows seen).map key, k ∉ seen := by
  induction rows with
  | nil =>
    intro seen
    refine ⟨by simp [dedupKeyGo], ?_⟩
    intro k hk
    simp [dedupKeyGo] at hk
  | cons r rs ih =>
    intro seen
    unfold dedupKeyGo
    by_cases hc : key r ∈ seen
    · rw [if_pos hc]
      exact ih seen
    · rw [if_neg hc]
      obtain ⟨hnd, hnot⟩ := ih (key r :: seen)
      refine ⟨?_, ?_⟩
      · rw [List.map_cons]
        refine List.nodup_cons.mpr ⟨?_, hnd⟩
        intro hk
        exact (hnot _ hk) (List.mem_cons_self _ _)
      · rw [List.map_cons]
        intro k hk
        rcases List.mem_cons.mp hk with h1 | h1
        · subst h1
          exact hc
        · intro hks
          exact (hnot _ h1) (List.mem_cons_of_mem _ hks)

theorem dedupKeyGo_eq_self {κ : Type} [DecidableEq κ] (key : Row → κ)
    (rows : List Row) :
    ∀ seen, ((rows.map key).Nodup) → (∀ k ∈ rows.map key, k ∉ seen) →
      dedupKeyGo key rows seen = rows := by
  induction rows with
  | nil => intro seen _ _; rfl
  | cons r rs ih =>
    intro seen hnd hdis
    unfold dedupKeyGo
    have hns : key r ∉ seen := hdis _ (by simp)
    rw [if_neg hns]
    congr 1
    have hnd2 : (key r :: rs.map key).Nodup := by simpa using hnd
    apply ih
    · exact (List.nodup_cons.mp hnd2).2
    · intro k hk hks
      rcases List.mem_cons.mp hks with h1 | h1
      · subst h1
        exact (List.nodup_cons.mp hnd2).1 hk
      · exact hdis k (by simp [hk]) h1

/-- C6: the two-stage deduplication of `remove_duplicates` (exact-duplicate
drop, then (title, reviewer_name) keep-first drop) is idempotent: applying
it again to an already-deduplicated batch removes no further rows. -/
theorem dedup_idempotent (rows : List Row) :
    removeDuplicates (removeDuplicates rows) = removeDuplicates rows := by
  unfold removeDuplicates
  have hpair : ((dedupKeyGo (fun r => (r.title, r.reviewer_name))
      (dedupKeyGo (fun r => r) rows []) []).map
        (fun r => (r.title, r.reviewer_name))).Nodup :=
    (dedupKeyGo_key_spec _ _ []).1
  have hrow : (dedupKeyGo (fun r => (r.title, r.reviewer_name))
      (dedupKeyGo (fun r => r) rows []) []).Nodup :=
    List.Nodup.of_map _ hpair
  have h1 : dedupKeyGo (fun r => r)
      (dedupKeyGo (fun r => (r.title, r.reviewer_name))
        (dedupKeyGo (fun r => r) rows []) []) []
      = dedupKeyGo (fun r => (r.title, r.reviewer_name))
        (dedupKeyGo (fun r => r) rows []) [] := by
    apply dedupKeyGo_eq_self
    · simpa [List.map_id'] using hrow
    · intro k _ hks
      simp at hks
  rw [h1]
  apply dedupKeyGo_eq_self
  · exact hpair
  · intro k _ hks
    simp at hks

theorem genId_prefix_ne (x y : String) :
    ("gen_" ++ toString (0 : Nat) ++ "_" ++ x : String)
      ≠ ("gen_" ++ toString (1 : Nat) ++ "_" ++ y : String) := by
  intro hxy
  have hd := congrArg String.data hxy
  simp only [String.data_append] at hd
  simp only [show (toString (0 : Nat)).data = ['0'] from rfl,
    show (toString (1 : Nat)).data = ['1'] from rfl] at hd
  simp at hd

theorem genId_ordinal_ne (h : String → Int) (r1 r2 : Row) :
    genId h 0 r1 ≠ genId h 1 r2 := by
  unfold genId
  exact genId_prefix_ne _ _

theorem removeDuplicates_pair_collapse (r : Row) :
    removeDuplicates [r, r] = [r] := by
  simp [removeDuplicates, dedupKeyGo]

/-- C2 counterexample: two candidates in the same run, both with missing
identity and identical (title, raw date) — differing only in reviewer —
receive DISTINCT generated identifiers (`gen_0_…` vs `gen_1_…`), refuting
"the identity backfill assigns them the same generated identifier". -/
theorem backfill_same_pair_counterexample :
    (backfillIds (fun _ => (0 : Int))
        [⟨Val.vnull, Val.vint 5, Val.vstr "Nice", Val.vnull, Val.vstr "Alice",
          Val.vstr "2024-01-01", Val.vbool false⟩,
         ⟨Val.vnull, Val.vint 5, Val.vstr "Nice", Val.vnull, Val.vstr "Bob",
          Val.vstr "2024-01-01", Val.vbool false⟩]).map Row.review_id
      = [Val.vstr "gen_0_0", Val.vstr "gen_1_0"]
    ∧ ("gen_0_0" : String) ≠ "gen_1_0" := by
  constructor
  · rfl
  · decide

/-- C2 amended: the identity backfill assigns two missing-identity records
of the same run identifiers that share the hash component derived from
(title, raw date) but embed their ordinal within the missing-id subset, so
the two identifiers are always distinct (for every hash function); two
fully identical candidates are nevertheless reduced to a single row because
exact-duplicate removal runs before the backfill. -/
theorem backfill_ordinal_ids (h : String → Int) (r1 r2 r : Row)
    (h1 : missingId r1 = true) (h2 : missingId r2 = true) :
    (backfillIds h [r1, r2]).map Row.review_id
      = [Val.vstr (genId h 0 r1), Val.vstr (genId h 1 r2)]
    ∧ genId h 0 r1 ≠ genId h 1 r2
    ∧ removeDuplicates [r, r] = [r] := by
  refine ⟨?_, genId_ordinal_ne h r1 r2, removeDuplicates_pair_collapse r⟩
  simp [backfillIds, backfillIdsGo, h1, h2]

/-- Witness for `backfill_ordinal_ids` at a concrete hash and records. -/
theorem backfill_ordinal_ids_witness :
    (backfillIds (fun _ => (7 : Int))
        [⟨Val.vstr "", Val.vint 4, Val.vstr "Nice", Val.vnull, Val.vstr "Alice",
          Val.vstr "2024-01-01", Val.vbool false⟩,
         ⟨Val.vnull, Val.vint 4, Val.vstr "Nice", Val.vnull, Val.vstr "Bob",
          Val.vstr "2024-01-01", Val.vbool false⟩]).map Row.review_id
      = [Val.vstr (genId (fun _ => (7 : Int)) 0
            ⟨Val.vstr "", Val.vint 4, Val.vstr "Nice", Val.vnull, Val.vstr "Alice",
              Val.vstr "2024-01-01", Val.vbool false⟩),
         Val.vstr (genId (fun _ => (7 : Int)) 1
            ⟨Val.vnull, Val.vint 4, Val.vstr "Nice", Val.vnull, Val.vstr "Bob",
              Val.vstr "2024-01-01", Val.vbool false⟩)]
    ∧ genId (fun _ => (7 : Int)) 0
          ⟨Val.vstr "", Val.vint 4, Val.vstr "Nice", Val.vnull, Val.vstr "Alice",
            Val.vstr "2024-01-01", Val.vbool false⟩
        ≠ genId (fun _ => (7 : Int)) 1
          ⟨Val.vnull, Val.vint 4, Val.vstr "Nice", Val.vnull, Val.vstr "Bob",
            Val.vstr "2024-01-01", Val.vbool false⟩
    ∧ removeDuplicates
          [⟨Val.vstr "q", Val.vint 3, Val.vstr "T", Val.vnull, Val.vstr "A",
            Val.vstr "2024-02-02", Val.vbool true⟩,
           ⟨Val.vstr "q", Val.vint 3, Val.vstr "T", Val.vnull, Val.vstr "A",
            Val.vstr "2024-02-02", Val.vbool true⟩]
        = [⟨Val.vstr "q", Val.vint 3, Val.vstr "T", Val.vnull, Val.vstr "A",
            Val.vstr "2024-02-02", Val.vbool true⟩] := by
  exact backfill_ordinal_ids (fun _ => (7 : Int))
    ⟨Val.vstr "", Val.vint 4, Val.vstr "Nice", Val.vnull, Val.vstr "Alice",
      Val.vstr "2024-01-01", Val.vbool false⟩
    ⟨Val.vnull, Val.vint 4, Val.vstr "Nice", Val.vnull, Val.vstr "Bob",
      Val.vstr "2024-01-01", Val.vbool false⟩
    ⟨Val.vstr "q", Val.vint 3, Val.vstr "T", Val.vnull, Val.vstr "A",
      Val.vstr "2024-02-02", Val.vbool true⟩
    (by decide) (by decide)

/-- C3 counterexample: a single-candidate batch whose rating is the present
but non-numeric string "five".  The reported dropped-row count is 0, not 1,
and the candidate is still present in the frame handed to schema validation
(the critical-field drop runs before type coercion), refuting the claimed
mechanism. -/
theorem coercion_drop_counterexample :
    (cleanPipeline (fun _ => (0 : Int)) [c3row "five"]).2 = 0
    ∧ (cleanPipeline (fun _ => (0 : Int)) [c3row "five"]).1 = []
    ∧ convertTypes (normalizeText
        (handleMissingValues (fun _ => (0 : Int))
          (removeDuplicates [c3row "five"])).1) ≠ [] := by
  refine ⟨by decide, by decide, by decide⟩

/-- C3 amended: a candidate whose rating is present but non-numeric survives
the critical-field drop (which runs before type coercion, so the dropped-row
count stays 0 for a batch of this one candidate), reaches schema validation
with its rating coerced to the missing sentinel by `convert_types`, and is
excluded there from the accepted batch. -/
theorem nonnumeric_rating_rejected (h : String → Int) (s : String)
    (hnum : strToNum s = none) :
    cleanPipeline h [c3row s] = ([], 0)
    ∧ convertTypes (normalizeText
        (handleMissingValues h (removeDuplicates [c3row s])).1)
      = [⟨Val.vstr "r1", Val.vnull, cleanVal (Val.vstr "Good product"),
          cleanVal (Val.vstr "Solid body text here"), cleanVal (Val.vstr "Alice"),
          Val.vdate "2024-01-02", Val.vbool false⟩] := by
  have hmid : convertTypes (normalizeText
      (handleMissingValues h (removeDuplicates [c3row s])).1)
      = [⟨Val.vstr "r1", Val.vnull, cleanVal (Val.vstr "Good product"),
          cleanVal (Val.vstr "Solid body text here"), cleanVal (Val.vstr "Alice"),
          Val.vdate "2024-01-02", Val.vbool false⟩] := by
    simp [c3row, removeDuplicates, dedupKeyGo, handleMissingValues,
      backfillIds, backfillIdsGo, missingId, fillBody, fillName, fillVerified,
      criticalPresent, normalizeText, convertTypes, toNumericInt, hnum,
      toDatetime, isParsableDate, toStrVal, toBoolVal, pyStr, cleanVal]
  have hcount : (handleMissingValues h (removeDuplicates [c3row s])).2 = 0 := by
    simp [c3row, removeDuplicates, dedupKeyGo, handleMissingValues,
      backfillIds, backfillIdsGo, missingId, fillBody, fillName, fillVerified,
      criticalPresent]
  constructor
  · simp only [cleanPipeline]
    rw [hmid, hcount]
    simp [validateSchema, validateSchemaGo, rowSchemaOk, ratingValid]
  · exact hmid

/-- Witness for `nonnumeric_rating_rejected` at the rating string "five". -/
theorem nonnumeric_rating_rejected_witness :
    cleanPipeline (fun _ => (3 : Int)) [c3row "five"] = ([], 0)
    ∧ convertTypes (normalizeText
        (handleMissingValues (fun _ => (3 : Int))
          (removeDuplicates [c3row "five"])).1)
      = [⟨Val.vstr "r1", Val.vnull, cleanVal (Val.vstr "Good product"),
          cleanVal (Val.vstr "Solid body text here"), cleanVal (Val.vstr "Alice"),
          Val.vdate "2024-01-02", Val.vbool false⟩] := by
  exact nonnumeric_rating_rejected (fun _ => (3 : Int)) "five" (by decide)

end Trustpilot

namespace Trustpilot

theorem stepName_shape (c : Card) (r : RawReview) :
    ∃ nm, stepName c r = Except.ok { r with reviewer_name := nm }
      ∨ stepName c r = Except.error { r with reviewer_name := nm } := by
  unfold stepName
  cases htn : tryNames c with
  | error e => exact ⟨r.reviewer_name, Or.inr rfl⟩
  | ok nm =>
    cases nm with
    | none =>
      dsimp only
      by_cases ht : truthyOpt r.reviewer_name = true
      · rw [if_pos ht]
        exact ⟨r.reviewer_name, Or.inl rfl⟩
      · rw [if_neg ht]
        cases hp : c.profileLink with
        | ok u => exact ⟨some (pyStrip u), Or.inl rfl⟩
        | absent => exact ⟨r.reviewer_name, Or.inl rfl⟩
        | raises => exact ⟨r.reviewer_name, Or.inr rfl⟩
    | some t =>
      dsimp only
      by_cases ht : truthyOpt (some t) = true
      · rw [if_pos ht]
        exact ⟨some t, Or.inl rfl⟩
      · rw [if_neg ht]
        cases hp : c.profileLink with
        | ok u => exact ⟨some (pyStrip u), Or.inl rfl⟩
        | absent => exact ⟨some t, Or.inl rfl⟩
        | raises => exact ⟨some t, Or.inr rfl⟩

theorem stepDate_shape (c : Card) (r : RawReview) :
    ∃ d, stepDate c r = Except.ok { r with date := d }
      ∨ stepDate c r = Except.error { r with date := d } := by
  unfold stepDate
  cases c.timeAttr with
  | ok v => exact ⟨v, Or.inl rfl⟩
  | absent => exact ⟨r.date, Or.inl rfl⟩
  | raises => exact ⟨r.date, Or.inr rfl⟩

theorem stepVerified_shape (c : Card) (r : RawReview) :
    ∃ b, stepVerified c r = Except.ok { r with is_verified := b }
      ∨ stepVerified c r = Except.error { r with is_verified := b } := by
  unfold stepVerified
  cases c.cardText with
  | ok t => exact ⟨_, Or.inl rfl⟩
  | absent => exact ⟨r.is_verified, Or.inl rfl⟩
  | raises => exact ⟨r.is_verified, Or.inr rfl⟩

theorem tail_fixed_fields (c : Card) (r : RawReview) :
    (runResult (stepThen (stepThen (stepThen (Except.ok r) (stepName c))
        (stepDate c)) (stepVerified c))).review_id = r.review_id
    ∧ (runResult (stepThen (stepThen (stepThen (Except.ok r) (stepName c))
        (stepDate c)) (stepVerified c))).rating = r.rating
    ∧ (runResult (stepThen (stepThen (stepThen (Except.ok r) (stepName c))
        (stepDate c)) (stepVerified c))).title = r.title
    ∧ (runResult (stepThen (stepThen (stepThen (Except.ok r) (stepName c))
        (stepDate c)) (stepVerified c))).body = r.body := by
  obtain ⟨nm, h1 | h1⟩ := stepName_shape c r
  · obtain ⟨d, h2 | h2⟩ := stepDate_shape c { r with reviewer_name := nm }
    · obtain ⟨b, h3 | h3⟩ :=
        stepVerified_shape c { { r with reviewer_name := nm } with date := d }
      · simp [stepThen, h1, h2, h3, runResult]
      · simp [stepThen, h1, h2, h3, runResult]
    · simp [stepThen, h1, h2, runResult]
  · simp [stepThen, h1, runResult]

theorem head_steps_ok (c : Card) (hid : c.idAttr ≠ FieldRes.raises)
    (hstar : c.starSrc ≠ FieldRes.raises)
    (htitle : c.titleText ≠ FieldRes.raises) :
    ∃ r, stepThen (stepThen (stepId c initReview) (stepRating c)) (stepTitle c)
        = Except.ok r ∧ r.body = none := by
  cases hcid : c.idAttr with
  | raises => exact absurd hcid hid
  | ok v =>
    cases hcs : c.starSrc with
    | raises => exact absurd hcs hstar
    | ok src =>
      cases hct : c.titleText with
      | raises => exact absurd hct htitle
      | ok t =>
        simp only [stepThen, stepId, stepRating, stepTitle, hcid, hcs, hct]
        exact ⟨_, rfl, by split <;> rfl⟩
      | absent =>
        simp only [stepThen, stepId, stepRating, stepTitle, hcid, hcs, hct]
        exact ⟨_, rfl, by split <;> rfl⟩
    | absent =>
      cases hct : c.titleText with
      | raises => exact absurd hct htitle
      | ok t =>
        simp only [stepThen, stepId, stepRating, stepTitle, hcid, hcs, hct]
        exact ⟨_, rfl, by split <;> rfl⟩
      | absent =>
        simp only [stepThen, stepId, stepRating, stepTitle, hcid, hcs, hct]
        exact ⟨_, rfl, by split <;> rfl⟩
  | absent =>
    cases hcs : c.starSrc with
    | raises => exact absurd hcs hstar
    | ok src =>
      cases hct : c.titleText with
      | raises => exact absurd hct htitle
      | ok t =>
        simp only [stepThen, stepId, stepRating, stepTitle, hcid, hcs, hct]
        exact ⟨_, rfl, rfl⟩
      | absent =>
        simp only [stepThen, stepId, stepRating, stepTitle, hcid, hcs, hct]
        exact ⟨_, rfl, rfl⟩
    | absent =>
      cases hct : c.titleText with
      | raises => exact absurd hct htitle
      | ok t =>
        simp only [stepThen, stepId, stepRating, stepTitle, hcid, hcs, hct]
        exact ⟨_, rfl, rfl⟩
      | absent =>
        simp only [stepThen, stepId, stepRating, stepTitle, hcid, hcs, hct]
        exact ⟨_, rfl, rfl⟩

/-- C7: the review body follows the exact deterministic fallback order:
when the primary semantically-tagged element is present its stripped text
is chosen, never a paragraph; otherwise the body is the choice of the
paragraph scan, which is exactly the first paragraph in document order
whose stripped text is longer than 20 characters and does not start with
"Date of experience", "Updated" or "Replied" — and null when no paragraph
qualifies. -/
theorem body_fallback_order (c : Card) (t : String) (ps : List String)
    (hid : c.idAttr ≠ FieldRes.raises) (hstar : c.starSrc ≠ FieldRes.raises)
    (htitle : c.titleText ≠ FieldRes.raises) :
    (c.bodyPrimary = FieldRes.ok t →
      (parseReviewCard c).body = some (pyStrip t))
    ∧ (c.bodyPrimary = FieldRes.absent → c.paragraphs = FieldRes.ok ps →
      (parseReviewCard c).body = pickBody ps)
    ∧ pickBody ps
      = (ps.map pyStrip).find?
          (fun x => decide (x.length > 20) && !isBoilerplate x) := by
  obtain ⟨r, hr, hbody⟩ := head_steps_ok c hid hstar htitle
  refine ⟨?_, ?_, ?_⟩
  · intro hbp
    unfold parseReviewCard parseSteps
    rw [hr]
    have hb : stepBody c r = Except.ok { r with body := some (pyStrip t) } := by
      unfold stepBody
      rw [hbp]
    rw [show stepThen (Except.ok r) (stepBody c) = stepBody c r from rfl, hb]
    calc (runResult (stepThen (stepThen (stepThen
            (Except.ok { r with body := some (pyStrip t) }) (stepName c))
            (stepDate c)) (stepVerified c))).body
        = ({ r with body := some (pyStrip t) } : RawReview).body :=
          (tail_fixed_fields c _).2.2.2
      _ = some (pyStrip t) := rfl
  · intro hbp hps
    unfold parseReviewCard parseSteps
    rw [hr]
    cases hpk : pickBody ps with
    | some u =>
      have hb : stepBody c r = Except.ok { r with body := some u } := by
        unfold stepBody
        rw [hbp, hps]
        dsimp only
        rw [hpk]
      rw [show stepThen (Except.ok r) (stepBody c) = stepBody c r from rfl, hb]
      calc (runResult (stepThen (stepThen (stepThen
              (Except.ok { r with body := some u }) (stepName c))
              (stepDate c)) (stepVerified c))).body
          = ({ r with body := some u } : RawReview).body :=
            (tail_fixed_fields c _).2.2.2
        _ = some u := rfl
    | none =>
      have hb : stepBody c r = Except.ok r := by
        unfold stepBody
        rw [hbp, hps]
        dsimp only
        rw [hpk]
      rw [show stepThen (Except.ok r) (stepBody c) = stepBody c r from rfl, hb]
      calc (runResult (stepThen (stepThen (stepThen
              (Except.ok r) (stepName c)) (stepDate c)) (stepVerified c))).body
          = r.body := (tail_fixed_fields c r).2.2.2
        _ = none := hbody
  · induction ps with
    | nil => rfl
    | cons p ps2 ih =>
      unfold pickBody
      rw [List.map_cons]
      by_cases hq :
          (decide ((pyStrip p).length > 20) && !isBoilerplate (pyStrip p)) = true
      · rw [if_pos hq]
        simp [List.find?_cons, hq]
      · rw [if_neg hq, ih]
        simp [List.find?_cons, hq]

/-- Witness for `body_fallback_order` at a concrete card exposing both the
primary body element and a qualifying paragraph. -/
theorem body_fallback_order_witness :
    ((⟨FieldRes.ok "id7", FieldRes.absent, FieldRes.ok "Title",
        FieldRes.ok "Primary body", FieldRes.ok ["This paragraph is long enough to qualify"],
        FieldRes.absent, FieldRes.absent, FieldRes.absent, FieldRes.absent,
        FieldRes.ok (some "2024-01-01"), FieldRes.ok "txt"⟩ : Card).bodyPrimary
        = FieldRes.ok "Primary body" →
      (parseReviewCard
        ⟨FieldRes.ok "id7", FieldRes.absent, FieldRes.ok "Title",
          FieldRes.ok "Primary body", FieldRes.ok ["This paragraph is long enough to qualify"],
          FieldRes.absent, FieldRes.absent, FieldRes.absent, FieldRes.absent,
          FieldRes.ok (some "2024-01-01"), FieldRes.ok "txt"⟩).body
        = some (pyStrip "Primary body"))
    ∧ ((⟨FieldRes.ok "id7", FieldRes.absent, FieldRes.ok "Title",
        FieldRes.ok "Primary body", FieldRes.ok ["This paragraph is long enough to qualify"],
        FieldRes.absent, FieldRes.absent, FieldRes.absent, FieldRes.absent,
        FieldRes.ok (some "2024-01-01"), FieldRes.ok "txt"⟩ : Card).bodyPrimary
        = FieldRes.absent →
      (⟨FieldRes.ok "id7", FieldRes.absent, FieldRes.ok "Title",
        FieldRes.ok "Primary body", FieldRes.ok ["This paragraph is long enough to qualify"],
        FieldRes.absent, FieldRes.absent, FieldRes.absent, FieldRes.absent,
        FieldRes.ok (some "2024-01-01"), FieldRes.ok "txt"⟩ : Card).paragraphs
        = FieldRes.ok ["This paragraph is long enough to qualify"] →
      (parseReviewCard
        ⟨FieldRes.ok "id7", FieldRes.absent, FieldRes.ok "Title",
          FieldRes.ok "Primary body", FieldRes.ok ["This paragraph is long enough to qualify"],
          FieldRes.absent, FieldRes.absent, FieldRes.absent, FieldRes.absent,
          FieldRes.ok (some "2024-01-01"), FieldRes.ok "txt"⟩).body
        = pickBody ["This paragraph is long enough to qualify"])
    ∧ pickBody ["This paragraph is long enough to qualify"]
      = (["This paragraph is long enough to qualify"].map pyStrip).find?
          (fun x => decide (x.length > 20) && !isBoilerplate x) := by
  exact body_fallback_order
    ⟨FieldRes.ok "id7", FieldRes.absent, FieldRes.ok "Title",
      FieldRes.ok "Primary body", FieldRes.ok ["This paragraph is long enough to qualify"],
      FieldRes.absent, FieldRes.absent, FieldRes.absent, FieldRes.absent,
      FieldRes.ok (some "2024-01-01"), FieldRes.ok "txt"⟩
    "Primary body" ["This paragraph is long enough to qualify"]
    (by decide) (by decide) (by decide)

end Trustpilot

namespace Trustpilot

/-- C8 counterexample: on `cEmptyNameCard` the first selector matches an
element with empty text and the second selector would yield the non-empty
"Bob"; the code nevertheless stops the chain at the first match and then
falls back to the profile-link anchor, returning "Carol" — refuting "first
strategy whose match yields a non-empty text wins" and "only if all listed
strategies fail does the extractor fall back". -/
theorem name_chain_counterexample :
    (parseReviewCard cEmptyNameCard).reviewer_name = some "Carol"
    ∧ (some "Carol" : Option String) ≠ some "Bob" := by
  constructor
  · rfl
  · decide

/-- C8 amended: the selector chain stops at the first strategy whose query
matches an ELEMENT, regardless of its text; the profile-link fallback is
consulted exactly when the resolved name is still falsy afterwards — no
selector matched, or the matched element's stripped text is empty — and is
not consulted when the matched text is non-empty. -/
theorem name_resolution (c : Card) (t u : String) (r : RawReview) :
    (c.name1 = FieldRes.ok t → tryNames c = Except.ok (some (pyStrip t)))
    ∧ (c.name1 = FieldRes.absent → c.name2 = FieldRes.ok t →
        tryNames c = Except.ok (some (pyStrip t)))
    ∧ (c.name1 = FieldRes.absent → c.name2 = FieldRes.absent →
        c.name3 = FieldRes.ok t → tryNames c = Except.ok (some (pyStrip t)))
    ∧ (c.name1 = FieldRes.absent → c.name2 = FieldRes.absent →
        c.name3 = FieldRes.absent → tryNames c = Except.ok none)
    ∧ (tryNames c = Except.ok (some t) → t ≠ "" →
        stepName c r = Except.ok { r with reviewer_name := some t })
    ∧ (tryNames c = Except.ok (some "") → c.profileLink = FieldRes.ok u →
        stepName c r = Except.ok { r with reviewer_name := some (pyStrip u) })
    ∧ (r.reviewer_name = none → tryNames c = Except.ok none →
        c.profileLink = FieldRes.ok u →
        stepName c r = Except.ok { r with reviewer_name := some (pyStrip u) }) := by
  refine ⟨?_, ?_, ?_, ?_, ?_, ?_, ?_⟩
  · intro h1
    unfold tryNames
    rw [h1]
  · intro h1 h2
    unfold tryNames
    rw [h1, h2]
  · intro h1 h2 h3
    unfold tryNames
    rw [h1, h2, h3]
  · intro h1 h2 h3
    unfold tryNames
    rw [h1, h2, h3]
  · intro htn ht
    unfold stepName
    rw [htn]
    dsimp only
    rw [if_pos (by simp [truthyOpt, ht])]
  · intro htn hp
    unfold stepName
    rw [htn]
    dsimp only
    rw [if_neg (by simp [truthyOpt]), hp]
  · intro hr htn hp
    unfold stepName
    rw [htn]
    dsimp only
    rw [if_neg (by simp [truthyOpt, hr]), hp]

/-- Witness for `name_resolution` on a concrete card whose first selector
matches with empty text, with "Bob" on the second selector and "Carol" on
the profile link. -/
theorem name_resolution_witness :
    (cEmptyNameCard.name1 = FieldRes.ok "x" →
        tryNames cEmptyNameCard = Except.ok (some (pyStrip "x")))
    ∧ (cEmptyNameCard.name1 = FieldRes.absent →
        cEmptyNameCard.name2 = FieldRes.ok "x" →
        tryNames cEmptyNameCard = Except.ok (some (pyStrip "x")))
    ∧ (cEmptyNameCard.name1 = FieldRes.absent →
        cEmptyNameCard.name2 = FieldRes.absent →
        cEmptyNameCard.name3 = FieldRes.ok "x" →
        tryNames cEmptyNameCard = Except.ok (some (pyStrip "x")))
    ∧ (cEmptyNameCard.name1 = FieldRes.absent →
        cEmptyNameCard.name2 = FieldRes.absent →
        cEmptyNameCard.name3 = FieldRes.absent →
        tryNames cEmptyNameCard = Except.ok none)
    ∧ (tryNames cEmptyNameCard = Except.ok (some "x") → "x" ≠ "" →
        stepName cEmptyNameCard initReview
          = Except.ok { initReview with reviewer_name := some "x" })
    ∧ (tryNames cEmptyNameCard = Except.ok (some "") →
        cEmptyNameCard.profileLink = FieldRes.ok "Carol" →
        stepName cEmptyNameCard initReview
          = Except.ok { initReview with reviewer_name := some (pyStrip "Carol") })
    ∧ (initReview.reviewer_name = none →
        tryNames cEmptyNameCard = Except.ok none →
        cEmptyNameCard.profileLink = FieldRes.ok "Carol" →
        stepName cEmptyNameCard initReview
          = Except.ok { initReview with reviewer_name := some (pyStrip "Carol") }) := by
  exact name_resolution cEmptyNameCard "x" "Carol" initReview

theorem scrapePage_append (a b : List Card) :
    scrapePage (a ++ b) = scrapePage a ++ scrapePage b := by
  induction a with
  | nil => rfl
  | cons c cs ih => simp [scrapePage, ih]

/-- C4 counterexample: on `cBadCard` the star-image query raises after the
card's id was read; the exception is caught, but the partially-parsed
candidate IS emitted into the page's candidate sequence, refuting "the card
is skipped (not emitted)". -/
theorem card_error_emits_counterexample :
    scrapePage [cBadCard]
      = [⟨some "rev1", 0, none, none, none, none, false⟩]
    ∧ ([⟨some "rev1", 0, none, none, none, none, false⟩] : List RawReview)
        ≠ [] := by
  constructor
  · rfl
  · decide

/-- C4 amended: an exception while parsing one card is caught and parsing of
that card stops at the failing step; the partially-filled candidate is then
emitted iff it already carries a truthy identity or title (a card that
yielded nothing is skipped); the remaining cards of the page are extracted
unaffected. -/
theorem card_error_isolation (pre suf : List Card) (c : Card) (v : String)
    (hv : v ≠ "") (hid : c.idAttr = FieldRes.ok v)
    (hstar : c.starSrc = FieldRes.raises) :
    scrapePage (pre ++ c :: suf)
      = scrapePage pre ++ emitCard c ++ scrapePage suf
    ∧ parseReviewCard c = ⟨some v, 0, none, none, none, none, false⟩
    ∧ emitCard c = [⟨some v, 0, none, none, none, none, false⟩]
    ∧ (∀ c2 : Card, parseReviewCard c2 = initReview → emitCard c2 = []) := by
  have hparse : parseReviewCard c = ⟨some v, 0, none, none, none, none, false⟩ := by
    simp [parseReviewCard, parseSteps, stepId, stepRating, stepThen,
      runResult, hid, hstar, hv, initReview]
  refine ⟨?_, hparse, ?_, ?_⟩
  · rw [scrapePage_append]
    simp [scrapePage]
  · simp [emitCard, hparse, truthyOpt, hv]
  · intro c2 h2
    simp [emitCard, h2, truthyOpt, initReview]

/-- Witness for `card_error_isolation` at a concrete page. -/
theorem card_error_isolation_witness :
    scrapePage ([] ++ cBadCard :: [cEmptyNameCard])
      = scrapePage [] ++ emitCard cBadCard ++ scrapePage [cEmptyNameCard]
    ∧ parseReviewCard cBadCard
      = ⟨some "rev1", 0, none, none, none, none, false⟩
    ∧ emitCard cBadCard = [⟨some "rev1", 0, none, none, none, none, false⟩]
    ∧ (∀ c2 : Card, parseReviewCard c2 = initReview → emitCard c2 = []) := by
  exact card_error_isolation [] [cEmptyNameCard] cBadCard "rev1"
    (by decide) rfl rfl

end Trustpilot
